import Mathlib

/-!
Verification of the phone-verification reconciliation pipeline (app.py).

The development shallowly embeds the program's pure logic:
text is Python `str`, modelled as `String` (with the character-list view
`List Char` for the primitive operations the code performs through the
Python string API); fallible external services (the Bland call API, the
Groq extraction service, the user database) are modelled as explicit
input data or oracle functions, and every exception the code catches is
modelled as an explicit error value.  The external fuzzywuzzy scoring
functions `fuzz.ratio` and `fuzz.token_sort_ratio` are opaque third-party
code and are therefore abstract score functions in the model.
-/

/-! ## Character-level string primitives (Python `str` operations) -/

/-- Whitespace stripped by Python's `str.strip()` (ASCII fragment). -/
def isPyWs (c : Char) : Bool :=
  c = ' ' || c = '\t' || c = '\n' || c = '\r' || c = '\x0b' || c = '\x0c'

/-- JSON insignificant whitespace, as accepted by `json.loads`. -/
def isJsonWs (c : Char) : Bool :=
  c = ' ' || c = '\t' || c = '\n' || c = '\r'

/-- Python `str.strip()`: drop leading and trailing whitespace. -/
def pyStrip (l : List Char) : List Char :=
  ((l.dropWhile isPyWs).reverse.dropWhile isPyWs).reverse

/-- Does `l` start with `pat`?  (Python `str.startswith`.) -/
def leadsWith : List Char → List Char → Bool
  | [], _ => true
  | _ :: _, [] => false
  | p :: ps, c :: cs => if p = c then leadsWith ps cs else false

/-- Does `l` end with `pat`?  (Python `str.endswith`.) -/
def trailsWith (pat l : List Char) : Bool :=
  leadsWith pat.reverse l.reverse

/-- Remove the first occurrence of `pat` from `l`
(Python `str.replace(pat, "", 1)`, scanning left to right). -/
def removeFirst (pat : List Char) : List Char → List Char
  | [] => []
  | c :: cs =>
    if leadsWith pat (c :: cs) then (c :: cs).drop pat.length
    else c :: removeFirst pat cs

/-- Does `pat` occur as a contiguous substring of `l`? -/
def containsSub (pat : List Char) : List Char → Bool
  | [] => leadsWith pat []
  | c :: cs => leadsWith pat (c :: cs) || containsSub pat cs

/-- Python `s.lower().strip()`, the normalization performed by
`compare_with_fuzzy_match` (ASCII lowercasing fragment). -/
def pyLowerStrip (s : String) : String :=
  ⟨pyStrip (s.data.map Char.toLower)⟩

/-! ## RecordMatcher: `compare_with_fuzzy_match` (app.py lines 148-159)

The two similarity scores come from the external fuzzywuzzy library, so
they are abstract parameters `ratioScore` and `tokenSortScore` of the
model (each a total function on the normalized strings, valued 0-100 in
the library; the model needs no range assumption).  An argument is an
`Option String` because the database can hand the function `NULL`
(Python `None`), which like the empty string is falsy. -/

/-- `compare_with_fuzzy_match(str1, str2, threshold=80)`:
false when either argument is falsy (`None` or `""`), otherwise
lowercase-and-strip both and test `max(ratio, token_sort_ratio) >= threshold`. -/
def compare_with_fuzzy_match (ratioScore tokenSortScore : String → String → Nat)
    (str1 str2 : Option String) (threshold : Nat := 80) : Bool :=
  match str1, str2 with
  | some s1, some s2 =>
    if s1 = "" || s2 = "" then false
    else
      let a := pyLowerStrip s1
      let b := pyLowerStrip s2
      decide (threshold ≤ max (ratioScore a b) (tokenSortScore a b))
  | _, _ => false

/-! ## VerificationStore: the accounts table and
`update_phone_verification` (app.py lines 64-75) -/

/-- A row of the `accounts` table: the three verification flags are the
strings the code reads and writes. -/
structure Account where
  username : String
  photo_verification : String
  doc_verification : String
  phone_verification : String
deriving DecidableEq, Repr

/-- `UPDATE accounts SET phone_verification = $1 WHERE username = $2`:
set the flag on every row whose username matches, leave the rest alone. -/
def update_phone_verification (username status : String) (db : List Account) :
    List Account :=
  db.map fun a =>
    if a.username = username then { a with phone_verification := status } else a

/-! ## IdentityExtractor: `extract_info_from_summary` (app.py lines 90-146)

The Groq service's behavior on a given summary is an oracle
`String → GroqResult`: either the request (or reading the response)
raises, or it yields the model's text output.  The prompt instructs the
model to return one JSON object whose four values are extracted text or
null, so `json.loads` is modelled on that fragment: a strict JSON object
whose values are strings (without escape sequences) or `null`; any other
input fails the parse, which the code catches. -/

/-- What the call to the Groq chat completion API produced for a given
summary: `failure` covers every exception the `try` block can raise
before the JSON stage (network error, missing response, missing choices),
`success content` is the model's text output. -/
inductive GroqResult where
  | failure
  | success (content : String)

/-- A JSON value of the fragment the prompt requests: a string or null. -/
inductive JVal where
  | null
  | str (s : String)
deriving DecidableEq, Repr

/-- A parsed JSON object, in source order (later bindings shadow earlier
ones on lookup, as in a Python dict built by `json.loads`). -/
def JObj := List (String × JVal)

/-- Python `dict.get(k)`: the value of the LAST binding of `k`, if any. -/
def objGet : List (String × JVal) → String → Option JVal
  | [], _ => none
  | (k', v) :: rest, k =>
    match objGet rest k with
    | some w => some w
    | none => if k' = k then some v else none

/-- The body of a JSON string after the opening quote: the content and
what follows the closing quote.  Escape sequences, raw control characters
and unterminated strings are outside the modelled fragment and fail. -/
def parseStringBody : List Char → Option (List Char × List Char)
  | [] => none
  | c :: rest =>
    if c = '"' then some ([], rest)
    else if c = '\\' || c.val < 32 then none
    else
      match parseStringBody rest with
      | some (s, r) => some (c :: s, r)
      | none => none

/-- A JSON value of the modelled fragment: a string or the atom null. -/
def parseValue : List Char → Option (JVal × List Char)
  | '"' :: rest => (parseStringBody rest).map fun p => (JVal.str ⟨p.1⟩, p.2)
  | 'n' :: 'u' :: 'l' :: 'l' :: rest => some (JVal.null, rest)
  | _ => none

/-- The members of a JSON object, entered just after `{` or after a `,`:
`"key" : value` pairs separated by commas, closed by `}`.  The fuel is
an upper bound on the member count; callers pass the input length plus
one, which always suffices since each member consumes characters. -/
def parseMembers : Nat → List Char → Option (List (String × JVal) × List Char)
  | 0, _ => none
  | fuel + 1, l =>
    match (l.dropWhile isJsonWs) with
    | '"' :: rest =>
      match parseStringBody rest with
      | none => none
      | some (k, r1) =>
        match (r1.dropWhile isJsonWs) with
        | ':' :: r2 =>
          match parseValue (r2.dropWhile isJsonWs) with
          | none => none
          | some (v, r3) =>
            match (r3.dropWhile isJsonWs) with
            | ',' :: r4 =>
              match parseMembers fuel r4 with
              | some (ms, rest') => some ((⟨k⟩, v) :: ms, rest')
              | none => none
            | '}' :: r4 => some ([(⟨k⟩, v)], r4)
            | _ => none
        | _ => none
    | _ => none

/-- `json.loads` on the modelled fragment: one JSON object, optionally
surrounded by whitespace, nothing after it.  `none` is a parse failure
(`json.loads` raising `JSONDecodeError`). -/
def parseJsonObj (l : List Char) : Option (List (String × JVal)) :=
  match (l.dropWhile isJsonWs) with
  | '{' :: rest =>
    match (rest.dropWhile isJsonWs) with
    | '}' :: r2 => if (r2.dropWhile isJsonWs).isEmpty then some [] else none
    | _ =>
      match parseMembers (rest.length + 1) rest with
      | some (ms, rest') =>
        if (rest'.dropWhile isJsonWs).isEmpty then some ms else none
      | none => none
  | _ => none

/-- The identity candidate the extractor hands to the orchestrator.  The
code returns the parsed dict itself; the orchestrator reads exactly the
four keys whose truthiness the extractor has checked, so the model
returns those four (necessarily non-empty) strings. -/
structure ExtractedIdentity where
  username : String
  name : String
  phone : String
  address : String
deriving DecidableEq, Repr

/-- The leading fence tag `content.startswith` tests (app.py line 125). -/
def fenceTag : List Char := "```json".data

/-- The fence marker tested at the end of the content (app.py line 127). -/
def fenceMarker : List Char := "```".data

/-- Lines 121-129 on the character list: strip the content, remove the
first occurrence of the leading fence tag when the content starts with
it, remove the FIRST occurrence of the fence marker when the content
ends with it (the code says `content.replace('```', '', 1)`), and strip
again. -/
def cleanList (l0 : List Char) : List Char :=
  let l := pyStrip l0
  let l := pyStrip l
  let l := if leadsWith fenceTag l then removeFirst fenceTag l else l
  let l := if trailsWith fenceMarker l then removeFirst fenceMarker l else l
  pyStrip l

/-- The cleanup of lines 121-129 applied to the model's output text. -/
def cleanContent (content : String) : List Char :=
  cleanList content.data

/-- Python truthiness of a looked-up JSON value: a non-empty string.
`extracted_info.get(k)` is falsy when the key is absent, null, or `""`. -/
def truthyStr : Option JVal → Option String
  | some (JVal.str s) => if s = "" then none else some s
  | _ => none

/-- Lines 134-142: require all four fields truthy, else return None. -/
def fieldCheck (obj : List (String × JVal)) : Option ExtractedIdentity :=
  match truthyStr (objGet obj "username"), truthyStr (objGet obj "name"),
      truthyStr (objGet obj "phone"), truthyStr (objGet obj "address") with
  | some u, some n, some p, some a => some ⟨u, n, p, a⟩
  | _, _, _, _ => none

/-- An exception raised inside the `try` block of
`extract_info_from_summary` (all are caught at line 144). -/
inductive PyFault where
  | serviceFault
  | jsonFault
deriving DecidableEq, Repr

/-- The `try` block body (lines 112-142): raise on service failure,
raise on JSON parse failure, otherwise return the checked result. -/
def extractTry (service : String → GroqResult) (summary : String) :
    Except PyFault (Option ExtractedIdentity) :=
  match service summary with
  | GroqResult.failure => Except.error PyFault.serviceFault
  | GroqResult.success content =>
    match parseJsonObj (cleanContent content) with
    | none => Except.error PyFault.jsonFault
    | some obj => Except.ok (fieldCheck obj)

/-- `extract_info_from_summary`: the whole body runs under
`try ... except Exception: return None`, so every fault collapses to
`none` and nothing propagates to the caller. -/
def extract_info_from_summary (service : String → GroqResult)
    (summary : String) : Option ExtractedIdentity :=
  match extractTry service summary with
  | Except.error _ => none
  | Except.ok v => v

/-- The four required fields of the extraction prompt. -/
def requiredFields : List String := ["username", "name", "phone", "address"]

/-! ## CallSource: `fetch_bland_calls` (app.py lines 77-88) -/

/-- An element of the `calls` array: the orchestrator reads only
`call.get('summary', '')`, so a call record is its summary field, absent
(`none`) when the key is missing or null. -/
structure CallRecord where
  summary : Option String
deriving DecidableEq, Repr

/-- The decoded JSON body of the Bland API response: the pipeline reads
only the `calls` key, a list when present.  (Bodies that are not valid
JSON are the `none` case of `BlandResponse`.) -/
structure BlandBody where
  calls : Option (List CallRecord)
deriving DecidableEq, Repr

/-- What `requests.get` produced: a transport-level failure (the request
raised before any response), or an HTTP response with a status code and
a body that decodes as JSON (`some`) or does not (`none`). -/
inductive BlandResponse where
  | transportError
  | httpResponse (status : Nat) (body : Option BlandBody)
deriving DecidableEq, Repr

/-- `fetch_bland_calls`: `raise_for_status` raises `HTTPError` (one of
the caught `RequestException`s) exactly for status codes 400-599; a body
that fails to decode raises `requests.exceptions.JSONDecodeError` (also
caught); otherwise the result is `response.json().get('calls', [])`. -/
def fetch_bland_calls : BlandResponse → List CallRecord
  | BlandResponse.transportError => []
  | BlandResponse.httpResponse status body =>
    if 400 ≤ status ∧ status ≤ 599 then []
    else
      match body with
      | none => []
      | some b => b.calls.getD []

/-! ## ReconciliationOrchestrator: the refresh loop of `main`
(app.py lines 186-209) -/

/-- The row `get_user_details` returns from the `users` table; each
column is nullable text. -/
structure UserDetails where
  name : Option String
  phone : Option String
  address : Option String
deriving DecidableEq, Repr

/-- The external collaborators of one reconciliation run: the two
fuzzywuzzy score functions, the Groq service's response to each summary,
and the `users` table as a point lookup by username. -/
structure Env where
  ratioScore : String → String → Nat
  tokenSortScore : String → String → Nat
  service : String → GroqResult
  users : String → Option UserDetails

/-- What one run of the refresh loop did: the accounts table afterwards,
how many times `update_phone_verification` ran, and the indices of the
calls whose summaries were sent to the extractor, in evaluation order. -/
structure RunResult where
  db : List Account
  writes : Nat
  evals : List Nat
deriving DecidableEq, Repr

/-- Does this call produce a full identity match for the target
username?  Mirrors one loop iteration's guards: non-empty summary,
successful extraction, exact (case-sensitive) username equality, a
stored user-details row, and all three fuzzy field matches at the
default threshold 80. -/
def callMatches (E : Env) (username : String) (call : CallRecord) : Bool :=
  let summary := call.summary.getD ""
  if summary = "" then false
  else
    match extract_info_from_summary E.service summary with
    | none => false
    | some info =>
      if info.username = username then
        match E.users username with
        | none => false
        | some details =>
          compare_with_fuzzy_match E.ratioScore E.tokenSortScore
              (some info.name) details.name &&
            compare_with_fuzzy_match E.ratioScore E.tokenSortScore
              (some info.phone) details.phone &&
            compare_with_fuzzy_match E.ratioScore E.tokenSortScore
              (some info.address) details.address
      else false

/-- The `for call in calls:` loop, starting at call index `i`.  Each
iteration mirrors app.py lines 186-209: skip an empty summary without
calling the extractor; otherwise extract (recording the index in
`evals`); on a falsy extraction, a username mismatch, or a missing
user-details row, fall through to the next call; when all three fuzzy
matches succeed, write `verified` once and `break`. -/
def runCalls (E : Env) (username : String) :
    Nat → List CallRecord → List Account → RunResult
  | _, [], db => ⟨db, 0, []⟩
  | i, call :: rest, db =>
    let summary := call.summary.getD ""
    if summary = "" then runCalls E username (i + 1) rest db
    else
      match extract_info_from_summary E.service summary with
      | none =>
        let r := runCalls E username (i + 1) rest db
        ⟨r.db, r.writes, i :: r.evals⟩
      | some info =>
        if info.username = username then
          match E.users username with
          | none =>
            let r := runCalls E username (i + 1) rest db
            ⟨r.db, r.writes, i :: r.evals⟩
          | some details =>
            if compare_with_fuzzy_match E.ratioScore E.tokenSortScore
                  (some info.name) details.name &&
                compare_with_fuzzy_match E.ratioScore E.tokenSortScore
                  (some info.phone) details.phone &&
                compare_with_fuzzy_match E.ratioScore E.tokenSortScore
                  (some info.address) details.address then
              ⟨update_phone_verification username "verified" db, 1, [i]⟩
            else
              let r := runCalls E username (i + 1) rest db
              ⟨r.db, r.writes, i :: r.evals⟩
        else
          let r := runCalls E username (i + 1) rest db
          ⟨r.db, r.writes, i :: r.evals⟩

/-- One reconciliation run for a target username over the fetched call
list, against the given accounts table. -/
def runVerification (E : Env) (username : String) (calls : List CallRecord)
    (db : List Account) : RunResult :=
  runCalls E username 0 calls db

/-! ## Concrete model outputs used as counterexamples and witnesses -/

/-- A model output whose JSON object carries all four fields present and
non-null, with `username` the empty string. -/
def emptyFieldContent : String :=
  "\x7b\"username\":\"\",\"name\":\"n\",\"phone\":\"p\",\"address\":\"a\"\x7d"

/-- A model output whose JSON object carries all four fields present and
non-null and non-empty except `name`, which is the empty string. -/
def emptyNameContent : String :=
  "\x7b\"username\":\"u\",\"name\":\"\",\"phone\":\"p\",\"address\":\"a\"\x7d"

/-- A JSON payload with four non-null, non-empty fields whose `address`
value contains the fence marker. -/
def fenceInsidePayload : String :=
  "\x7b\"username\":\"u\",\"name\":\"n\",\"phone\":\"p\",\"address\":\"a```a\"\x7d"

/-- A clean JSON payload with four non-null, non-empty fields. -/
def cleanPayload : String :=
  "\x7b\"username\":\"alice\",\"name\":\"Al Smith\",\"phone\":\"555\",\"address\":\"12 Main St\"\x7d"

/-! ## Theorems: C3 and C8 -/

/-- C3: for every pair of (possibly absent) strings and every threshold T,
`compare_with_fuzzy_match` returns true iff both inputs are present and
non-empty and, after lowercasing and stripping both, the maximum of the
two similarity scores is at least T.  The definition's default threshold
is 80, as in the code; an absent (`none`) or empty input yields false
regardless of the other argument, and the boundary behavior at T and T-1
is exactly the ≤ comparison of the iff. -/
theorem fuzzy_match_iff_threshold (ratioScore tokenSortScore : String → String → Nat)
    (str1 str2 : Option String) (threshold : Nat) :
    compare_with_fuzzy_match ratioScore tokenSortScore str1 str2 threshold = true ↔
      ∃ s1 s2, str1 = some s1 ∧ str2 = some s2 ∧ s1 ≠ "" ∧ s2 ≠ "" ∧
        threshold ≤ max (ratioScore (pyLowerStrip s1) (pyLowerStrip s2))
          (tokenSortScore (pyLowerStrip s1) (pyLowerStrip s2)) := by
  cases str1 with
  | none => simp [compare_with_fuzzy_match]
  | some s1 =>
    cases str2 with
    | none => simp [compare_with_fuzzy_match]
    | some s2 =>
      by_cases h1 : s1 = "" <;> by_cases h2 : s2 = "" <;>
        simp [compare_with_fuzzy_match, h1, h2]

/-- C8: `update_phone_verification` is idempotent: writing `verified`
twice for a username yields the same accounts table as writing it once,
and after the write every row with that username carries
`phone_verification = "verified"` (the total function models that the
second invocation, like the first, returns without error). -/
theorem set_phone_verified_idempotent (username : String) (db : List Account) :
    update_phone_verification username "verified"
        (update_phone_verification username "verified" db) =
      update_phone_verification username "verified" db ∧
    ∀ a ∈ update_phone_verification username "verified" db,
      a.username = username → a.phone_verification = "verified" := by
  constructor
  · unfold update_phone_verification
    rw [List.map_map]
    apply List.map_congr_left
    intro a _
    by_cases h : a.username = username <;> simp [h]
  · intro a ha hu
    unfold update_phone_verification at ha
    rcases List.mem_map.mp ha with ⟨b, _, hb⟩
    by_cases h : b.username = username
    · simp [h] at hb; rw [← hb]
    · simp [h] at hb; rw [← hb] at hu; exact absurd hu h

/-! ## Helper lemmas about the extractor's field check -/

theorem truthyStr_eq_none_iff (x : Option JVal) :
    truthyStr x = none ↔
      x = none ∨ x = some JVal.null ∨ x = some (JVal.str "") := by
  rcases x with _ | v
  · simp [truthyStr]
  · rcases v with _ | s
    · simp [truthyStr]
    · by_cases h : s = "" <;> simp [truthyStr, h]

theorem truthyStr_eq_some_iff (x : Option JVal) (v : String) :
    truthyStr x = some v ↔ x = some (JVal.str v) ∧ v ≠ "" := by
  rcases x with _ | w
  · simp [truthyStr]
  · rcases w with _ | s
    · simp [truthyStr]
    · by_cases h : s = "" <;> simp [truthyStr, h] <;> aesop

theorem fieldCheck_eq_none_iff (obj : List (String × JVal)) :
    fieldCheck obj = none ↔
      truthyStr (objGet obj "username") = none ∨
      truthyStr (objGet obj "name") = none ∨
      truthyStr (objGet obj "phone") = none ∨
      truthyStr (objGet obj "address") = none := by
  unfold fieldCheck
  cases h1 : truthyStr (objGet obj "username") <;>
    cases h2 : truthyStr (objGet obj "name") <;>
    cases h3 : truthyStr (objGet obj "phone") <;>
    cases h4 : truthyStr (objGet obj "address") <;> simp

theorem fieldCheck_eq_some_of (obj : List (String × JVal)) (u n p a : String)
    (h1 : truthyStr (objGet obj "username") = some u)
    (h2 : truthyStr (objGet obj "name") = some n)
    (h3 : truthyStr (objGet obj "phone") = some p)
    (h4 : truthyStr (objGet obj "address") = some a) :
    fieldCheck obj = some ⟨u, n, p, a⟩ := by
  unfold fieldCheck
  rw [h1, h2, h3, h4]


/-- Unfolding helper: on a successful service response the extractor is
the JSON parse followed by the four-field truthiness check. -/
theorem extract_success_eq_bind (content summary : String) :
    extract_info_from_summary (fun _ => GroqResult.success content) summary =
      (parseJsonObj (cleanContent content)).bind fieldCheck := by
  cases hp : parseJsonObj (cleanContent content) <;>
    simp [extract_info_from_summary, extractTry, hp]

/-! ## Theorems: C4, C5, C10 (extractor error handling) -/

/-- C4: the extractor never raises to its caller: every exception the
try-block body can produce (service/network failure, missing response,
output that does not parse as JSON) and every parsed object with a
missing or null required field collapse to the single `none` outcome. -/
theorem extract_absorbs_all_failures :
    (∀ (service : String → GroqResult) (summary : String) (fault : PyFault),
      extractTry service summary = Except.error fault →
      extract_info_from_summary service summary = none) ∧
    (∀ summary : String,
      extract_info_from_summary (fun _ => GroqResult.failure) summary = none) ∧
    (∀ content summary : String,
      parseJsonObj (cleanContent content) = none →
      extract_info_from_summary (fun _ => GroqResult.success content) summary
        = none) ∧
    (∀ (content summary : String) (obj : List (String × JVal)) (f : String),
      parseJsonObj (cleanContent content) = some obj →
      f ∈ requiredFields →
      (objGet obj f = none ∨ objGet obj f = some JVal.null) →
      extract_info_from_summary (fun _ => GroqResult.success content) summary
        = none) := by
  refine ⟨?_, ?_, ?_, ?_⟩
  · intro service summary fault h
    unfold extract_info_from_summary
    rw [h]
  · intro summary
    rfl
  · intro content summary h
    rw [extract_success_eq_bind, h]
    rfl
  · intro content summary obj f hp hf hbad
    rw [extract_success_eq_bind, hp]
    show fieldCheck obj = none
    have hnone : truthyStr (objGet obj f) = none := by
      rcases hbad with h | h <;> rw [h] <;> rfl
    rw [fieldCheck_eq_none_iff]
    simp only [requiredFields, List.mem_cons, List.mem_singleton,
      List.not_mem_nil, or_false] at hf
    rcases hf with rfl | rfl | rfl | rfl
    · exact Or.inl hnone
    · exact Or.inr (Or.inl hnone)
    · exact Or.inr (Or.inr (Or.inl hnone))
    · exact Or.inr (Or.inr (Or.inr hnone))

/-- C5 counterexample: a model output whose JSON object has all four
required fields present and non-null (the username is the empty string
`""`, a non-null JSON string), yet the extractor returns `none` instead
of the parsed identity, because the code tests Python truthiness rather
than presence/non-nullness. -/
theorem extract_empty_field_cex :
    parseJsonObj (cleanContent emptyFieldContent) =
      some [("username", JVal.str ""), ("name", JVal.str "n"),
        ("phone", JVal.str "p"), ("address", JVal.str "a")] ∧
    extract_info_from_summary (fun _ => GroqResult.success emptyFieldContent)
      "call summary" = none :=
  ⟨rfl, rfl⟩

/-- C5 amended: given that the response parses as a JSON object, the
extractor returns `none` iff at least one of the four required fields is
absent, null, OR the empty string; it returns the parsed identity
exactly when all four fields are present as non-empty strings. -/
theorem extract_requires_nonempty_fields (content summary : String) :
    (extract_info_from_summary (fun _ => GroqResult.success content) summary
        = none ↔
      parseJsonObj (cleanContent content) = none ∨
      ∃ obj, parseJsonObj (cleanContent content) = some obj ∧
        ∃ f ∈ requiredFields,
          objGet obj f = none ∨ objGet obj f = some JVal.null ∨
            objGet obj f = some (JVal.str "")) ∧
    (∀ (obj : List (String × JVal)) (u n p a : String),
      parseJsonObj (cleanContent content) = some obj →
      objGet obj "username" = some (JVal.str u) → u ≠ "" →
      objGet obj "name" = some (JVal.str n) → n ≠ "" →
      objGet obj "phone" = some (JVal.str p) → p ≠ "" →
      objGet obj "address" = some (JVal.str a) → a ≠ "" →
      extract_info_from_summary (fun _ => GroqResult.success content) summary
        = some ⟨u, n, p, a⟩) := by
  constructor
  · rcases Option.eq_none_or_eq_some (parseJsonObj (cleanContent content)) with
      hp | ⟨obj, hp⟩
    · rw [extract_success_eq_bind, hp]
      simp
    · rw [extract_success_eq_bind, hp]
      show fieldCheck obj = none ↔ _
      rw [fieldCheck_eq_none_iff]
      simp only [Option.some.injEq, reduceCtorEq, false_or]
      constructor
      · intro h
        refine ⟨obj, rfl, ?_⟩
        rcases h with h | h | h | h
        · exact ⟨"username", by simp [requiredFields],
            (truthyStr_eq_none_iff _).mp h⟩
        · exact ⟨"name", by simp [requiredFields],
            (truthyStr_eq_none_iff _).mp h⟩
        · exact ⟨"phone", by simp [requiredFields],
            (truthyStr_eq_none_iff _).mp h⟩
        · exact ⟨"address", by simp [requiredFields],
            (truthyStr_eq_none_iff _).mp h⟩
      · rintro ⟨obj', rfl, f, hf, hbad⟩
        have hnone : truthyStr (objGet obj f) = none :=
          (truthyStr_eq_none_iff _).mpr hbad
        simp only [requiredFields, List.mem_cons, List.mem_singleton,
          List.not_mem_nil, or_false] at hf
        rcases hf with rfl | rfl | rfl | rfl
        · exact Or.inl hnone
        · exact Or.inr (Or.inl hnone)
        · exact Or.inr (Or.inr (Or.inl hnone))
        · exact Or.inr (Or.inr (Or.inr hnone))
  · intro obj u n p a hp hu hune hn hnne hph hpne ha hane
    rw [extract_success_eq_bind, hp]
    show fieldCheck obj = _
    rw [fieldCheck_eq_some_of obj u n p a
      ((truthyStr_eq_some_iff _ _).mpr ⟨hu, hune⟩)
      ((truthyStr_eq_some_iff _ _).mpr ⟨hn, hnne⟩)
      ((truthyStr_eq_some_iff _ _).mpr ⟨hph, hpne⟩)
      ((truthyStr_eq_some_iff _ _).mpr ⟨ha, hane⟩)]

/-- C10: when the response parses as a JSON object in which all four
required fields are present and non-null but at least one field's value
is the empty string, the extractor returns `none` (present-but-empty
fields are unusable). -/
theorem extract_rejects_empty_field_values (content summary : String)
    (obj : List (String × JVal))
    (hp : parseJsonObj (cleanContent content) = some obj)
    (_hall : ∀ f ∈ requiredFields, ∃ v, objGet obj f = some (JVal.str v))
    (hempty : ∃ f ∈ requiredFields, objGet obj f = some (JVal.str "")) :
    extract_info_from_summary (fun _ => GroqResult.success content) summary
      = none := by
  rw [extract_success_eq_bind, hp]
  show fieldCheck obj = none
  rcases hempty with ⟨f, hf, hemp⟩
  have hnone : truthyStr (objGet obj f) = none := by rw [hemp]; rfl
  rw [fieldCheck_eq_none_iff]
  simp only [requiredFields, List.mem_cons, List.mem_singleton,
    List.not_mem_nil, or_false] at hf
  rcases hf with rfl | rfl | rfl | rfl
  · exact Or.inl hnone
  · exact Or.inr (Or.inl hnone)
  · exact Or.inr (Or.inr (Or.inl hnone))
  · exact Or.inr (Or.inr (Or.inr hnone))

/-- C10 witness: the concrete model output with an empty `name` value is
rejected by the extractor. -/
theorem extract_rejects_empty_field_values_witness :
    extract_info_from_summary (fun _ => GroqResult.success emptyNameContent)
      "call summary" = none :=
  extract_rejects_empty_field_values emptyNameContent "call summary"
    [("username", JVal.str "u"), ("name", JVal.str ""),
      ("phone", JVal.str "p"), ("address", JVal.str "a")]
    rfl
    (by
      intro f hf
      simp only [requiredFields, List.mem_cons, List.mem_singleton,
        List.not_mem_nil, or_false] at hf
      rcases hf with rfl | rfl | rfl | rfl
      · exact ⟨"u", rfl⟩
      · exact ⟨"", rfl⟩
      · exact ⟨"p", rfl⟩
      · exact ⟨"a", rfl⟩)
    ⟨"name", by simp [requiredFields], rfl⟩

/-! ## Helper lemmas about the code-fence cleanup -/

theorem leadsWith_append (pat X : List Char) :
    leadsWith pat (pat ++ X) = true := by
  induction pat with
  | nil => rfl
  | cons p ps ih => simp [leadsWith, ih]

theorem removeFirst_append_self (pat X : List Char) :
    removeFirst pat (pat ++ X) = X := by
  cases pat with
  | nil => cases X <;> simp [removeFirst, leadsWith]
  | cons p ps =>
    show removeFirst (p :: ps) (p :: (ps ++ X)) = X
    simp [removeFirst, leadsWith, leadsWith_append, List.drop_left]

theorem trailsWith_append (pat X : List Char) :
    trailsWith pat (X ++ pat) = true := by
  unfold trailsWith
  rw [List.reverse_append]
  exact leadsWith_append _ _

theorem dropWhile_bq (t : List Char) :
    List.dropWhile isPyWs ('`' :: t) = '`' :: t := by
  rw [List.dropWhile_cons, if_neg (by decide : ¬(isPyWs '`' = true))]

theorem pyStrip_eq_self (l : List Char)
    (h1 : List.dropWhile isPyWs l = l)
    (h2 : List.dropWhile isPyWs l.reverse = l.reverse) : pyStrip l = l := by
  unfold pyStrip
  rw [h1, h2, List.reverse_reverse]

theorem pyStrip_fenced (payload : List Char) :
    pyStrip (fenceTag ++ (payload ++ fenceMarker)) =
      fenceTag ++ (payload ++ fenceMarker) := by
  apply pyStrip_eq_self
  · exact dropWhile_bq _
  · rw [List.reverse_append, List.reverse_append]
    exact dropWhile_bq _

theorem leadsWith_fence_iff (c1 c2 c3 : Char) (X : List Char) :
    leadsWith fenceMarker (c1 :: c2 :: c3 :: X) = true ↔
      '`' = c1 ∧ '`' = c2 ∧ '`' = c3 := by
  show leadsWith ('`' :: '`' :: '`' :: []) _ = true ↔ _
  by_cases h1 : '`' = c1 <;> by_cases h2 : '`' = c2 <;> by_cases h3 : '`' = c3 <;>
    simp [leadsWith, h1, h2, h3]

/-- Removing the first occurrence of the fence marker from
`l ++ fenceMarker` gives back `l`, provided the marker does not occur
inside `l`.  (An occurrence may straddle the boundary when `l` ends in
one or two backticks; the removal still returns `l`.) -/
theorem removeFirst_fence (l : List Char)
    (h : containsSub fenceMarker l = false) :
    removeFirst fenceMarker (l ++ fenceMarker) = l := by
  induction l with
  | nil => rfl
  | cons c cs ih =>
    unfold containsSub at h
    obtain ⟨hlead, hsub⟩ := Bool.or_eq_false_iff.mp h
    show removeFirst fenceMarker (c :: (cs ++ fenceMarker)) = c :: cs
    by_cases hl : leadsWith fenceMarker (c :: (cs ++ fenceMarker)) = true
    · cases cs with
      | nil =>
        have hc : '`' = c := by
          by_contra hne
          simp [fenceMarker, leadsWith, hne] at hl
        subst hc
        rfl
      | cons c2 cs2 =>
        cases cs2 with
        | nil =>
          have hc : '`' = c ∧ '`' = c2 := by
            constructor
            · by_contra hne
              simp [fenceMarker, leadsWith, hne] at hl
            · by_contra hne
              simp [fenceMarker, leadsWith, hne] at hl
          obtain ⟨hc1, hc2⟩ := hc
          subst hc1
          subst hc2
          rfl
        | cons c3 cs3 =>
          exfalso
          have h3 : '`' = c ∧ '`' = c2 ∧ '`' = c3 :=
            (leadsWith_fence_iff c c2 c3 (cs3 ++ fenceMarker)).mp hl
          have : leadsWith fenceMarker (c :: c2 :: c3 :: cs3) = true :=
            (leadsWith_fence_iff c c2 c3 cs3).mpr h3
          rw [this] at hlead
          exact Bool.true_eq_false.mp hlead
    · simp only [removeFirst, if_neg hl]
      rw [ih hsub]

/-- The cleanup of a fence-wrapped payload that contains no fence marker
of its own is exactly the stripped payload. -/
theorem cleanList_fenced (payload : List Char)
    (h : containsSub fenceMarker payload = false) :
    cleanList (fenceTag ++ (payload ++ fenceMarker)) = pyStrip payload := by
  unfold cleanList
  simp only [pyStrip_fenced, leadsWith_append, if_true, removeFirst_append_self,
    trailsWith_append, removeFirst_fence payload h]

/-! ## Theorems: C6 (code-fence stripping) -/

/-- C6 counterexample: a JSON payload whose four fields are present,
non-null and non-empty but whose `address` value contains the fence
marker.  The payload itself parses, yet when the model wraps it in a
code fence the cleanup removes the FIRST occurrence of the marker — the
one inside the address — leaving the trailing fence in place, so the
JSON parse fails and the extractor returns `none` instead of the
identity parsed from the enclosed payload. -/
theorem fence_marker_in_payload_cex :
    parseJsonObj fenceInsidePayload.data =
      some [("username", JVal.str "u"), ("name", JVal.str "n"),
        ("phone", JVal.str "p"), ("address", JVal.str "a```a")] ∧
    extract_info_from_summary
      (fun _ => GroqResult.success ("```json" ++ fenceInsidePayload ++ "```"))
      "call summary" = none :=
  ⟨rfl, rfl⟩

/-- C6 amended: for every payload that (after stripping) parses as a
JSON object with the four required fields present as non-empty strings,
and that contains no occurrence of the fence marker, the extractor
strips the code-fence wrapping (the leading fence tag and the trailing
fence marker) and returns the identity parsed from the enclosed
payload. -/
theorem fenced_payload_roundtrip (payload : List Char) (summary : String)
    (obj : List (String × JVal)) (u n p a : String)
    (hnf : containsSub fenceMarker payload = false)
    (hp : parseJsonObj (pyStrip payload) = some obj)
    (hu : objGet obj "username" = some (JVal.str u)) (hune : u ≠ "")
    (hn : objGet obj "name" = some (JVal.str n)) (hnne : n ≠ "")
    (hph : objGet obj "phone" = some (JVal.str p)) (hpne : p ≠ "")
    (ha : objGet obj "address" = some (JVal.str a)) (hane : a ≠ "") :
    extract_info_from_summary
      (fun _ => GroqResult.success ⟨fenceTag ++ (payload ++ fenceMarker)⟩)
      summary = some ⟨u, n, p, a⟩ := by
  rw [extract_success_eq_bind]
  have hc : cleanContent ⟨fenceTag ++ (payload ++ fenceMarker)⟩ =
      pyStrip payload := by
    show cleanList (fenceTag ++ (payload ++ fenceMarker)) = pyStrip payload
    exact cleanList_fenced payload hnf
  rw [hc, hp]
  show fieldCheck obj = _
  rw [fieldCheck_eq_some_of obj u n p a
    ((truthyStr_eq_some_iff _ _).mpr ⟨hu, hune⟩)
    ((truthyStr_eq_some_iff _ _).mpr ⟨hn, hnne⟩)
    ((truthyStr_eq_some_iff _ _).mpr ⟨hph, hpne⟩)
    ((truthyStr_eq_some_iff _ _).mpr ⟨ha, hane⟩)]

/-- C6 witness: a concrete clean payload wrapped in a code fence is
stripped and extracted. -/
theorem fenced_payload_roundtrip_witness :
    extract_info_from_summary
      (fun _ => GroqResult.success ⟨fenceTag ++ (cleanPayload.data ++ fenceMarker)⟩)
      "call summary" = some ⟨"alice", "Al Smith", "555", "12 Main St"⟩ :=
  fenced_payload_roundtrip cleanPayload.data "call summary"
    [("username", JVal.str "alice"), ("name", JVal.str "Al Smith"),
      ("phone", JVal.str "555"), ("address", JVal.str "12 Main St")]
    "alice" "Al Smith" "555" "12 Main St"
    rfl rfl rfl (by decide) rfl (by decide) rfl (by decide) rfl (by decide)

/-! ## Helper lemmas about the reconciliation loop -/

/-- One loop iteration, characterized by `callMatches`: a fully matching
call writes and breaks; an empty summary is skipped without extraction;
any other non-matching call is evaluated and falls through. -/
theorem runCalls_cons (E : Env) (username : String) (i : Nat) (call : CallRecord)
    (rest : List CallRecord) (db : List Account) :
    runCalls E username i (call :: rest) db =
      if callMatches E username call = true then
        ⟨update_phone_verification username "verified" db, 1, [i]⟩
      else if (call.summary.getD "") = "" then
        runCalls E username (i + 1) rest db
      else
        ⟨(runCalls E username (i + 1) rest db).db,
         (runCalls E username (i + 1) rest db).writes,
         i :: (runCalls E username (i + 1) rest db).evals⟩ := by
  simp only [runCalls, callMatches]
  by_cases hs : (call.summary.getD "") = ""
  · simp [hs]
  · simp only [hs, if_false]
    cases he : extract_info_from_summary E.service (call.summary.getD "") with
    | none => simp [he, hs]
    | some info =>
      by_cases hu : info.username = username
      · cases hd : E.users username with
        | none => simp [he, hs, hu, hd]
        | some details =>
          by_cases hm : (compare_with_fuzzy_match E.ratioScore E.tokenSortScore
                (some info.name) details.name &&
              compare_with_fuzzy_match E.ratioScore E.tokenSortScore
                (some info.phone) details.phone &&
              compare_with_fuzzy_match E.ratioScore E.tokenSortScore
                (some info.address) details.address) = true
          · simp [he, hs, hu, hd, hm]
          · simp [he, hs, hu, hd, hm]
      · simp [he, hs, hu]

theorem runCalls_writes_le_one (E : Env) (username : String) :
    ∀ (calls : List CallRecord) (i : Nat) (db : List Account),
      (runCalls E username i calls db).writes ≤ 1 := by
  intro calls
  induction calls with
  | nil => intro i db; simp [runCalls]
  | cons call rest ih =>
    intro i db
    rw [runCalls_cons]
    by_cases hm : callMatches E username call = true
    · simp [hm]
    · by_cases hs : (call.summary.getD "") = ""
      · simp [hm, hs]; exact ih _ _
      · simp [hm, hs]; exact ih _ _

/-- The accounts table after a run: the `verified` write when exactly
one write happened, the unchanged input table otherwise. -/
theorem runCalls_db_eq (E : Env) (username : String) :
    ∀ (calls : List CallRecord) (i : Nat) (db : List Account),
      (runCalls E username i calls db).db =
        (if (runCalls E username i calls db).writes = 1 then
          update_phone_verification username "verified" db else db) := by
  intro calls
  induction calls with
  | nil => intro i db; simp [runCalls]
  | cons call rest ih =>
    intro i db
    rw [runCalls_cons]
    by_cases hm : callMatches E username call = true
    · simp [hm]
    · by_cases hs : (call.summary.getD "") = ""
      · simp [hm, hs]; exact ih _ _
      · simp [hm, hs]; exact ih _ _

theorem runCalls_writes_eq_one_iff (E : Env) (username : String) :
    ∀ (calls : List CallRecord) (i : Nat) (db : List Account),
      ((runCalls E username i calls db).writes = 1 ↔
        ∃ call ∈ calls, callMatches E username call = true) := by
  intro calls
  induction calls with
  | nil => intro i db; simp [runCalls]
  | cons call rest ih =>
    intro i db
    rw [runCalls_cons]
    by_cases hm : callMatches E username call = true
    · simp [hm]
    · by_cases hs : (call.summary.getD "") = ""
      · simp [hm, hs, ih]
      · simp [hm, hs, ih]

/-- The extractor is invoked on strictly increasing call indices, all at
least the starting index. -/
theorem runCalls_evals_bounds (E : Env) (username : String) :
    ∀ (calls : List CallRecord) (i : Nat) (db : List Account),
      List.Chain' (fun j k => j < k) (runCalls E username i calls db).evals ∧
      ∀ j ∈ (runCalls E username i calls db).evals, i ≤ j := by
  intro calls
  induction calls with
  | nil => intro i db; simp [runCalls]
  | cons call rest ih =>
    intro i db
    rw [runCalls_cons]
    by_cases hm : callMatches E username call = true
    · simp [hm]
    · by_cases hs : (call.summary.getD "") = ""
      · rw [if_neg hm, if_pos hs]
        constructor
        · exact (ih (i + 1) db).1
        · intro j hj
          exact Nat.le_of_succ_le ((ih (i + 1) db).2 j hj)
      · rw [if_neg hm, if_neg hs]
        constructor
        · rw [List.chain'_cons']
          constructor
          · intro k hk
            have hk' : k ∈ (runCalls E username (i + 1) rest db).evals :=
              List.mem_of_mem_head? hk
            exact Nat.lt_of_succ_le ((ih (i + 1) db).2 k hk')
          · exact (ih (i + 1) db).1
        · intro j hj
          rcases List.mem_cons.mp hj with rfl | hj'
          · exact Nat.le_refl j
          · exact Nat.le_of_succ_le ((ih (i + 1) db).2 j hj')

/-- When no call before `call` matches and `call` matches, the run
writes once, breaks, and the extractor has seen exactly the calls up to
and including `call` (the calls after it contribute nothing). -/
theorem runCalls_first_match (E : Env) (username : String) (call : CallRecord)
    (post : List CallRecord) (hmatch : callMatches E username call = true) :
    ∀ (pre : List CallRecord) (i : Nat) (db : List Account),
      (∀ c ∈ pre, callMatches E username c = false) →
      runCalls E username i (pre ++ call :: post) db =
        ⟨update_phone_verification username "verified" db, 1,
          (runCalls E username i pre db).evals ++ [i + pre.length]⟩ := by
  intro pre
  induction pre with
  | nil =>
    intro i db _
    rw [List.nil_append, runCalls_cons, if_pos hmatch]
    simp [runCalls]
  | cons c' pre' ih =>
    intro i db hpre
    have hc' : ¬callMatches E username c' = true := by
      simp [hpre c' (List.mem_cons_self c' pre')]
    rw [List.cons_append, runCalls_cons, if_neg hc',
      runCalls_cons E username i c' pre' db, if_neg hc']
    have hrec := ih (i + 1) db (fun c hc => hpre c (List.mem_cons_of_mem c' hc))
    have harith : i + 1 + pre'.length = i + (c' :: pre').length := by
      rw [List.length_cons]; omega
    by_cases hs : (c'.summary.getD "") = ""
    · rw [if_pos hs, if_pos hs, hrec, harith]
    · rw [if_neg hs, if_neg hs, hrec]
      simp [harith]

/-- `callMatches` spelt out as the conjunction of the loop's guards. -/
theorem callMatches_eq_true_iff (E : Env) (username : String) (call : CallRecord) :
    callMatches E username call = true ↔
      ∃ info details,
        (call.summary.getD "") ≠ "" ∧
        extract_info_from_summary E.service (call.summary.getD "") = some info ∧
        info.username = username ∧
        E.users username = some details ∧
        compare_with_fuzzy_match E.ratioScore E.tokenSortScore
          (some info.name) details.name = true ∧
        compare_with_fuzzy_match E.ratioScore E.tokenSortScore
          (some info.phone) details.phone = true ∧
        compare_with_fuzzy_match E.ratioScore E.tokenSortScore
          (some info.address) details.address = true := by
  unfold callMatches
  by_cases hs : (call.summary.getD "") = ""
  · simp [hs]
  · cases he : extract_info_from_summary E.service (call.summary.getD "") with
    | none => simp [he, hs]
    | some info =>
      by_cases hu : info.username = username
      · cases hd : E.users username with
        | none => simp [he, hs, hu, hd]
        | some details => simp [he, hs, hu, hd, and_assoc]
      · simp [he, hs, hu]

/-! ## Theorems: C1, C2, C9 (orchestrator) -/

/-- C1: the run performs the `verified` write exactly when some fetched
call yields an extracted identity whose username equals the target
username exactly (case-sensitively) and whose name, phone and address
each fuzzy-match the stored user-details row at the default threshold;
when no call satisfies all these conjuncts, no write occurs and the
accounts table is unchanged. -/
theorem verified_write_requires_full_match (E : Env) (username : String)
    (calls : List CallRecord) (db : List Account) :
    ((runVerification E username calls db).writes = 1 ↔
      ∃ call ∈ calls, ∃ info details,
        (call.summary.getD "") ≠ "" ∧
        extract_info_from_summary E.service (call.summary.getD "") = some info ∧
        info.username = username ∧
        E.users username = some details ∧
        compare_with_fuzzy_match E.ratioScore E.tokenSortScore
          (some info.name) details.name = true ∧
        compare_with_fuzzy_match E.ratioScore E.tokenSortScore
          (some info.phone) details.phone = true ∧
        compare_with_fuzzy_match E.ratioScore E.tokenSortScore
          (some info.address) details.address = true) ∧
    (runVerification E username calls db).db =
      (if (runVerification E username calls db).writes = 1 then
        update_phone_verification username "verified" db else db) := by
  constructor
  · rw [runVerification, runCalls_writes_eq_one_iff]
    constructor
    · rintro ⟨call, hcall, hm⟩
      exact ⟨call, hcall, (callMatches_eq_true_iff E username call).mp hm⟩
    · rintro ⟨call, hcall, hrest⟩
      exact ⟨call, hcall, (callMatches_eq_true_iff E username call).mpr hrest⟩
  · exact runCalls_db_eq E username calls 0 db

/-- C2: the run writes at most once; the extractor is invoked on call
indices in strictly increasing source order; and when the calls split as
`pre ++ call :: post` with nothing in `pre` matching and `call` a full
match, the run writes exactly once and its extractor invocations are
those of processing `pre` alone followed by `call`'s own index — the
calls in `post` are never evaluated. -/
theorem first_match_stops_processing :
    (∀ (E : Env) (username : String) (calls : List CallRecord)
        (db : List Account),
      (runVerification E username calls db).writes ≤ 1) ∧
    (∀ (E : Env) (username : String) (calls : List CallRecord)
        (db : List Account),
      List.Chain' (fun j k => j < k) (runVerification E username calls db).evals) ∧
    (∀ (E : Env) (username : String) (pre : List CallRecord) (call : CallRecord)
        (post : List CallRecord) (db : List Account),
      (∀ c ∈ pre, callMatches E username c = false) →
      callMatches E username call = true →
      runVerification E username (pre ++ call :: post) db =
        ⟨update_phone_verification username "verified" db, 1,
          (runVerification E username pre db).evals ++ [pre.length]⟩) := by
  refine ⟨?_, ?_, ?_⟩
  · intro E username calls db
    exact runCalls_writes_le_one E username calls 0 db
  · intro E username calls db
    exact (runCalls_evals_bounds E username calls 0 db).1
  · intro E username pre call post db hpre hmatch
    rw [runVerification, runVerification,
      runCalls_first_match E username call post hmatch pre 0 db hpre]
    rw [Nat.zero_add]

/-- C9: the run mutates only `phone_verification`: row for row, username
and the photo and document flags are unchanged, and the phone flag is
either untouched or set to `"verified"` — in particular a `"verified"`
flag is never reverted.  (The `users` table is only read: the model
gives the run no operation that could change it.) -/
theorem pipeline_frame_effect (E : Env) (username : String)
    (calls : List CallRecord) (db : List Account) :
    List.Forall₂ (fun a a' =>
        a'.username = a.username ∧
        a'.photo_verification = a.photo_verification ∧
        a'.doc_verification = a.doc_verification ∧
        (a'.phone_verification = a.phone_verification ∨
          a'.phone_verification = "verified"))
      db (runVerification E username calls db).db := by
  have hdb := runCalls_db_eq E username calls 0 db
  rw [runVerification, hdb]
  by_cases hw : (runCalls E username 0 calls db).writes = 1
  · rw [if_pos hw]
    unfold update_phone_verification
    rw [List.forall₂_map_right_iff, List.forall₂_same]
    intro a _
    by_cases h : a.username = username
    · simp [h]
    · simp [h]
  · rw [if_neg hw]
    rw [List.forall₂_same]
    intro a _
    exact ⟨rfl, rfl, rfl, Or.inl rfl⟩

/-! ## Theorems: C7 (CallSource) -/

/-- C7 counterexample: a 303 response (non-2xx) whose JSON body carries
a `calls` array.  `raise_for_status` raises only for 4xx/5xx, so the
code returns the decoded call list instead of the empty sequence the
claim requires for every non-2xx response. -/
theorem fetch_calls_redirect_cex :
    fetch_bland_calls (BlandResponse.httpResponse 303
        (some ⟨some [⟨some "call summary"⟩]⟩)) =
      [⟨some "call summary"⟩] ∧
    ¬(200 ≤ 303 ∧ 303 ≤ 299) :=
  ⟨rfl, by decide⟩

/-- C7 amended: `fetch_bland_calls` never raises: it returns `[]` on a
transport failure, on any 4xx/5xx status (via `raise_for_status`), and
on a body that is not valid JSON; on every other response it returns the
body's `calls` array, or `[]` when that key is absent. -/
theorem fetch_calls_failure_empty :
    fetch_bland_calls BlandResponse.transportError = [] ∧
    (∀ (status : Nat) (body : Option BlandBody), 400 ≤ status → status ≤ 599 →
      fetch_bland_calls (BlandResponse.httpResponse status body) = []) ∧
    (∀ status : Nat, ¬(400 ≤ status ∧ status ≤ 599) →
      fetch_bland_calls (BlandResponse.httpResponse status none) = []) ∧
    (∀ (status : Nat) (b : BlandBody), ¬(400 ≤ status ∧ status ≤ 599) →
      fetch_bland_calls (BlandResponse.httpResponse status (some b)) =
        b.calls.getD []) := by
  refine ⟨rfl, ?_, ?_, ?_⟩
  · intro status body h1 h2
    simp [fetch_bland_calls, h1, h2]
  · intro status h
    simp [fetch_bland_calls, h]
  · intro status b h
    simp [fetch_bland_calls, h]
